import Mathlib

/-!
Verification of the ephemeris seconds/nanoseconds core.

This file shallowly embeds the two source files of the repository
(src/duration.rs and src/instant.rs) in Lean 4.  Machine integers
(i64, u32) are modelled as unbounded Int together with the explicit
range predicate inI64; every checked Rust operation becomes an
Option-valued Lean function that returns none exactly when the Rust
operation would report overflow, and every panicking wrapper is
modelled as the corresponding Option-valued function (a panic is
none).  The helper module seconds_nanos and the constants module are
not part of the two embedded files; they are modelled from the
specification, as marked on each such definition.
-/

/-- Lower bound of the signed 64-bit integer range. -/
abbrev i64min : Int := -9223372036854775808

/-- Upper bound of the signed 64-bit integer range. -/
abbrev i64max : Int := 9223372036854775807

/-- The value fits in a signed 64-bit integer. -/
abbrev inI64 (n : Int) : Prop := i64min ≤ n ∧ n ≤ i64max

/-- Rust checked_add on i64: some of the sum when representable, none on overflow. -/
def checked_add (a b : Int) : Option Int :=
  if inI64 (a + b) then some (a + b) else none

/-- Rust checked_mul on i64: some of the product when representable, none on overflow. -/
def checked_mul (a b : Int) : Option Int :=
  if inI64 (a * b) then some (a * b) else none

/-- Modelled from the spec: the constants module is not among the embedded
source files.  Values are fixed by the doc comments of duration.rs (a day is
86,400 seconds, an hour 3600 seconds, a minute 60 seconds) and the spec. -/
abbrev NANOSECONDS_IN_SECOND : Int := 1000000000

/-- Modelled from the spec: nanoseconds in one millisecond. -/
abbrev NANOSECONDS_IN_MILLISECOND : Int := 1000000

/-- Modelled from the spec: milliseconds in one second. -/
abbrev MILLISECONDS_IN_SECOND : Int := 1000

/-- Modelled from the spec: seconds in one minute. -/
abbrev SECONDS_IN_MINUTE : Int := 60

/-- Modelled from the spec: seconds in one hour. -/
abbrev SECONDS_IN_HOUR : Int := 3600

/-- Modelled from the spec: seconds in one day. -/
abbrev SECONDS_IN_DAY : Int := 86400

/-- Modelled from the spec: the seconds_nanos helper module is not among the
embedded source files.  floor_divide_and_remainder uses floored division so
that the remainder is always in [0, divisor) for a positive divisor. -/
def floor_divide_and_remainder (n d : Int) : Int × Int :=
  (Int.fdiv n d, Int.fmod n d)

/-- Modelled from the spec: split a nanosecond count into whole seconds and a
remainder in [0, 1_000_000_000) by floored division. -/
def seconds_and_nanos (nanoseconds : Int) : Int × Int :=
  floor_divide_and_remainder nanoseconds NANOSECONDS_IN_SECOND

/-- Modelled from the spec: the carry step of the normalization core, folding
an out-of-range nanosecond adjustment into a whole-second carry and a
remainder in [0, 1_000_000_000). -/
def carry_and_nanos (adjustment : Int) : Int × Int :=
  floor_divide_and_remainder adjustment NANOSECONDS_IN_SECOND

/-- Modelled from the spec: the combine step of the normalization core.
Splits the adjustment by floored division and adds the carry to the base
seconds with checked addition, failing on overflow. -/
def seconds_nanos.of_seconds_and_adjustment_checked (seconds nano_adjustment : Int) :
    Option (Int × Int) :=
  (checked_add seconds (seconds_and_nanos nano_adjustment).1).map
    (fun s => (s, (seconds_and_nanos nano_adjustment).2))

/-- A time-based amount of time; fields as in the source. -/
structure Duration where
  seconds : Int
  nanoseconds_of_second : Int
deriving DecidableEq, Repr

/-- Constant for a duration with the greatest negative length. -/
def Duration.MIN : Duration := ⟨i64min, 0⟩

/-- Constant for a duration of zero length. -/
def Duration.ZERO : Duration := ⟨0, 0⟩

/-- Constant for a duration with the greatest positive length. -/
def Duration.MAX : Duration := ⟨i64max, NANOSECONDS_IN_SECOND - 1⟩

/-- Accessor nano: returns the stored field verbatim. -/
def Duration.nano (d : Duration) : Int := d.nanoseconds_of_second

/-- Derived lexicographic comparison on (seconds, nanoseconds_of_second),
as produced by the derived ordering on the source struct. -/
def Duration.ble (a b : Duration) : Bool :=
  decide (a.seconds < b.seconds) ||
    (decide (a.seconds = b.seconds) && decide (a.nanoseconds_of_second ≤ b.nanoseconds_of_second))

/-- Obtains a Duration representing a number of seconds; nanosecond field zero. -/
def Duration.of_seconds (seconds : Int) : Duration :=
  ⟨seconds, 0⟩

/-- Checked constructor from seconds and a nanosecond adjustment; none on overflow. -/
def Duration.of_seconds_and_adjustment_checked (seconds nano_adjustment : Int) :
    Option Duration :=
  (seconds_nanos.of_seconds_and_adjustment_checked seconds nano_adjustment).map
    (fun p => ⟨p.1, p.2⟩)

/-- Panicking constructor from seconds and a nanosecond adjustment, modelled as
the checked constructor (a panic is none). -/
def Duration.of_seconds_and_adjustment (seconds nano_adjustment : Int) : Option Duration :=
  Duration.of_seconds_and_adjustment_checked seconds nano_adjustment

/-- Checked constructor from days: checked multiplication by 86,400, then of_seconds. -/
def Duration.of_days_checked (days : Int) : Option Duration :=
  (checked_mul days SECONDS_IN_DAY).map Duration.of_seconds

/-- Panicking constructor from days, modelled as the checked constructor. -/
def Duration.of_days (days : Int) : Option Duration :=
  Duration.of_days_checked days

/-- Checked constructor from hours: checked multiplication by 3600, then of_seconds. -/
def Duration.of_hours_checked (hours : Int) : Option Duration :=
  (checked_mul hours SECONDS_IN_HOUR).map Duration.of_seconds

/-- Panicking constructor from hours, modelled as the checked constructor. -/
def Duration.of_hours (hours : Int) : Option Duration :=
  Duration.of_hours_checked hours

/-- Checked constructor from minutes: checked multiplication by 60, then of_seconds. -/
def Duration.of_minutes_checked (minutes : Int) : Option Duration :=
  (checked_mul minutes SECONDS_IN_MINUTE).map Duration.of_seconds

/-- Panicking constructor from minutes, modelled as the checked constructor. -/
def Duration.of_minutes (minutes : Int) : Option Duration :=
  Duration.of_minutes_checked minutes

/-- Constructor from milliseconds: truncating division splits whole seconds
from a millisecond remainder, the remainder becomes nanoseconds and its carry
is folded into the seconds with plain (unchecked) addition, as in the source. -/
def Duration.of_millis (millis : Int) : Duration :=
  ⟨Int.tdiv millis MILLISECONDS_IN_SECOND +
      (carry_and_nanos (Int.tmod millis MILLISECONDS_IN_SECOND * NANOSECONDS_IN_MILLISECOND)).1,
    (carry_and_nanos (Int.tmod millis MILLISECONDS_IN_SECOND * NANOSECONDS_IN_MILLISECOND)).2⟩

/-- Constructor from nanoseconds: full normalization of (0, nanoseconds). -/
def Duration.of_nanos (nanoseconds : Int) : Duration :=
  ⟨(seconds_and_nanos nanoseconds).1, (seconds_and_nanos nanoseconds).2⟩

/-- Checked negation, as the free function checked_neg of the source:
none at MIN, special case at (i64min, nanos with nanos nonzero), and
otherwise the carry-normalized sign flip. -/
def checked_neg (duration : Duration) : Option Duration :=
  if duration.seconds = i64min ∧ duration.nano = 0 then
    none
  else if duration.seconds = i64min then
    some ⟨i64max, NANOSECONDS_IN_SECOND - duration.nano⟩
  else
    some ⟨-duration.seconds + (carry_and_nanos (-duration.nano)).1,
      (carry_and_nanos (-duration.nano)).2⟩

/-- Unary negation (the Neg impl), modelled as checked_neg (a panic is none). -/
def Duration.neg (d : Duration) : Option Duration :=
  checked_neg d

/-- Absolute value: identity at or above ZERO, else negation; none on overflow. -/
def Duration.abs (d : Duration) : Option Duration :=
  if Duration.ble Duration.ZERO d then some d else checked_neg d

/-- Total days: truncating division of the seconds by 86,400. -/
def Duration.to_days (d : Duration) : Int :=
  Int.tdiv d.seconds SECONDS_IN_DAY

/-- Total hours: truncating division of the seconds by 3600. -/
def Duration.to_hours (d : Duration) : Int :=
  Int.tdiv d.seconds SECONDS_IN_HOUR

/-- Total minutes: truncating division of the seconds by 60. -/
def Duration.to_minutes (d : Duration) : Int :=
  Int.tdiv d.seconds SECONDS_IN_MINUTE

/-- Total milliseconds: checked multiplication of seconds by 1000, then
checked addition of the nanoseconds divided by 1,000,000; none on overflow. -/
def Duration.to_millis (d : Duration) : Option Int :=
  (checked_mul d.seconds MILLISECONDS_IN_SECOND).bind
    (fun result => checked_add result (Int.tdiv d.nano NANOSECONDS_IN_MILLISECOND))

/-- Total nanoseconds: checked multiplication of seconds by 1,000,000,000,
then checked addition of the nanoseconds; none on overflow. -/
def Duration.to_nanos (d : Duration) : Option Int :=
  (checked_mul d.seconds NANOSECONDS_IN_SECOND).bind
    (fun result => checked_add result d.nano)

/-- The derived Default value of Duration: each field takes the numeric default zero. -/
def Duration.default : Duration := ⟨0, 0⟩

/-- An instantaneous point in time along the timeline; fields as in the source. -/
structure Instant where
  epoch_second : Int
  nanosecond_of_second : Int
deriving DecidableEq, Repr

/-- Constant for the earliest possible instant. -/
def Instant.MIN : Instant := ⟨i64min, 0⟩

/-- Constant for the epoch instant. -/
def Instant.EPOCH : Instant := ⟨0, 0⟩

/-- Constant for the last possible instant. -/
def Instant.MAX : Instant := ⟨i64max, NANOSECONDS_IN_SECOND - 1⟩

/-- Accessor nano: returns the stored field verbatim. -/
def Instant.nano (i : Instant) : Int := i.nanosecond_of_second

/-- Checked constructor from epoch seconds and a nanosecond adjustment. -/
def Instant.of_epoch_second_and_adjustment_checked (seconds nano_adjustment : Int) :
    Option Instant :=
  (seconds_nanos.of_seconds_and_adjustment_checked seconds nano_adjustment).map
    (fun p => ⟨p.1, p.2⟩)

/-- Panicking constructor from epoch seconds and an adjustment, modelled as
the checked constructor (a panic is none). -/
def Instant.of_epoch_second_and_adjustment (seconds nano_adjustment : Int) : Option Instant :=
  Instant.of_epoch_second_and_adjustment_checked seconds nano_adjustment

/-- Constructor from epoch seconds: adjustment zero. -/
def Instant.of_epoch_second (epoch_seconds : Int) : Option Instant :=
  Instant.of_epoch_second_and_adjustment epoch_seconds 0

/-- Constructor from epoch milliseconds: truncating division splits seconds
from a millisecond remainder, the remainder becomes the nanosecond adjustment
and the pair is routed through the checked constructor. -/
def Instant.of_epoch_milli (epoch_milliseconds : Int) : Option Instant :=
  Instant.of_epoch_second_and_adjustment_checked
    (Int.tdiv epoch_milliseconds MILLISECONDS_IN_SECOND)
    (Int.tmod epoch_milliseconds MILLISECONDS_IN_SECOND * NANOSECONDS_IN_MILLISECOND)

/-- The derived Default value of Instant: each field takes the numeric default zero. -/
def Instant.default : Instant := ⟨0, 0⟩

/-- Decimal digit characters of a natural number, most significant first.
The first argument is structural fuel; 20 suffices for any 64-bit value. -/
def natDigits : Nat → Nat → List Char
  | 0, _ => []
  | fuel + 1, n => if n = 0 then [] else natDigits fuel (n / 10) ++ [Nat.digitChar (n % 10)]

/-- Decimal rendering of a natural number. -/
def natRepr (n : Nat) : String := if n = 0 then "0" else ⟨natDigits 20 n⟩

/-- Decimal rendering of an integer, as the standard formatter of i64 prints it. -/
def intRepr (i : Int) : String :=
  if i < 0 then "-" ++ natRepr i.natAbs else natRepr i.natAbs

/-- Remove trailing zero characters, as trim_end_matches with the zero digit. -/
def trimTrailingZeros (s : String) : String :=
  ⟨(s.data.reverse.dropWhile (fun c => c = '0')).reverse⟩

/-- Zero-pad a string on the left to nine characters, as the 09 width format. -/
def padTo9 (s : String) : String :=
  String.mk (List.replicate (9 - s.length) '0') ++ s

/-- The fractional part of the seconds field: a point, nine zero-padded
digits, then trailing zeros stripped, as in the source formatter. -/
def fractionString (nanos : Int) : String :=
  trimTrailingZeros ("." ++ padTo9 (natRepr nanos.toNat))

/-- The Display implementation for Duration: ISO-8601 seconds-based rendering. -/
def Duration.fmt (d : Duration) : String :=
  if d = Duration.ZERO then "PT0S"
  else
    let effective : Int × Int :=
      if d.seconds ≥ 0 ∨ d.nano = 0 then (d.seconds, d.nano)
      else (d.seconds + 1, NANOSECONDS_IN_SECOND - d.nano)
    let hours := Int.tdiv effective.1 SECONDS_IN_HOUR
    let minutes := Int.tdiv (Int.tmod effective.1 SECONDS_IN_HOUR) SECONDS_IN_MINUTE
    let remaining_seconds := Int.tmod effective.1 SECONDS_IN_MINUTE
    "PT" ++ (if hours ≠ 0 then intRepr hours ++ "H" else "")
      ++ (if minutes ≠ 0 then intRepr minutes ++ "M" else "")
      ++ (if remaining_seconds ≠ 0 ∨ effective.2 ≠ 0 then
            (if remaining_seconds = 0 ∧ effective.1 < 0 then "-0" else intRepr remaining_seconds)
              ++ (if effective.2 ≠ 0 then fractionString effective.2 else "")
              ++ "S"
          else "")

example : Duration.fmt Duration.ZERO = "PT0S" := by decide
example : Duration.fmt ⟨29172, 0⟩ = "PT8H6M12S" := by decide
example : Duration.fmt ⟨29172, 345000000⟩ = "PT8H6M12.345S" := by decide
example : Duration.fmt ⟨-2, 700000000⟩ = "PT-1.3S" := by decide
example : Duration.fmt ⟨-1, 700000000⟩ = "PT0.3S" := by decide
example : Duration.fmt ⟨-61, 700000000⟩ = "PT-1M-0.3S" := by decide
example : Duration.fmt ⟨0, 5⟩ = "PT0.000000005S" := by decide

/-- Identity and range facts for the floored split of a nanosecond count. -/
theorem fdiv_fmod_identity (n : Int) :
    1000000000 * Int.fdiv n 1000000000 + Int.fmod n 1000000000 = n ∧
      0 ≤ Int.fmod n 1000000000 ∧ Int.fmod n 1000000000 < 1000000000 :=
  ⟨Int.fdiv_add_fmod n 1000000000, Int.fmod_nonneg' n (by norm_num),
    Int.fmod_lt_of_pos n (by norm_num)⟩

/-- The truncating remainder lies strictly between the negated divisor and the divisor. -/
theorem tmod_range (a : Int) {b : Int} (hb : 0 < b) :
    -b < Int.tmod a b ∧ Int.tmod a b < b := by
  refine ⟨?_, Int.tmod_lt_of_pos a hb⟩
  rcases le_or_lt 0 a with h | h
  · have h1 := Int.tmod_nonneg b h
    linarith
  · have h1 := Int.tdiv_add_tmod a b
    have h2 := Int.tdiv_add_tmod (-a) b
    rw [Int.neg_tdiv, Int.mul_neg] at h2
    have h3 := Int.tmod_lt_of_pos (-a) hb
    linarith

/-- The normalization combine step as an explicit conditional. -/
theorem combine_eq (s a : Int) :
    seconds_nanos.of_seconds_and_adjustment_checked s a =
      if inI64 (s + Int.fdiv a 1000000000) then
        some (s + Int.fdiv a 1000000000, Int.fmod a 1000000000)
      else none := by
  simp only [seconds_nanos.of_seconds_and_adjustment_checked, seconds_and_nanos,
    floor_divide_and_remainder, checked_add, NANOSECONDS_IN_SECOND]
  split <;> simp

/-- The floored quotient of an i64 nanosecond count by one billion fits in i64. -/
theorem fdiv_nanos_inI64 {n : Int} (h : inI64 n) : inI64 (Int.fdiv n 1000000000) := by
  have h1 := fdiv_fmod_identity n
  obtain ⟨ha, hb⟩ := h
  simp only [inI64, i64min, i64max] at ha hb ⊢
  constructor <;> omega

/-- Renormalizing an in-range canonical pair returns it unchanged. -/
theorem renorm_eq {s n : Int} (hs : inI64 s) (h0 : 0 ≤ n) (h1 : n < 1000000000) :
    Duration.of_seconds_and_adjustment_checked s n = some ⟨s, n⟩ := by
  have h2 := fdiv_fmod_identity n
  have hq : Int.fdiv n 1000000000 = 0 := by omega
  have hr : Int.fmod n 1000000000 = n := by omega
  simp [Duration.of_seconds_and_adjustment_checked, combine_eq, hq, hr, hs]

/-- Renormalizing an in-range canonical pair of an Instant returns it unchanged. -/
theorem renorm_eq_instant {s n : Int} (hs : inI64 s) (h0 : 0 ≤ n) (h1 : n < 1000000000) :
    Instant.of_epoch_second_and_adjustment_checked s n = some ⟨s, n⟩ := by
  have h2 := fdiv_fmod_identity n
  have hq : Int.fdiv n 1000000000 = 0 := by omega
  have hr : Int.fmod n 1000000000 = n := by omega
  simp [Instant.of_epoch_second_and_adjustment_checked, combine_eq, hq, hr, hs]

/-- The milliseconds constructor produces the canonical floored split of the
total nanosecond value of the input. -/
theorem of_millis_eq (m : Int) :
    Duration.of_millis m =
      ⟨Int.fdiv (m * 1000000) 1000000000, Int.fmod (m * 1000000) 1000000000⟩ := by
  have h1 := Int.tdiv_add_tmod m 1000
  have h2 := tmod_range m (b := 1000) (by norm_num)
  have h3 := fdiv_fmod_identity (Int.tmod m 1000 * 1000000)
  have h4 := fdiv_fmod_identity (m * 1000000)
  simp only [Duration.of_millis, carry_and_nanos, floor_divide_and_remainder,
    MILLISECONDS_IN_SECOND, NANOSECONDS_IN_MILLISECOND, NANOSECONDS_IN_SECOND,
    Duration.mk.injEq]
  constructor <;> omega

/-- The canonical-form property for a Duration: the nanosecond field is in
range and renormalizing the accessor pair reproduces the value unchanged. -/
def DurationCanonical (d : Duration) : Prop :=
  0 ≤ d.nano ∧ d.nano < NANOSECONDS_IN_SECOND ∧
    Duration.of_seconds_and_adjustment_checked d.seconds d.nano = some d

/-- The canonical-form property for an Instant. -/
def InstantCanonical (i : Instant) : Prop :=
  0 ≤ i.nano ∧ i.nano < NANOSECONDS_IN_SECOND ∧
    Instant.of_epoch_second_and_adjustment_checked i.epoch_second i.nano = some i

/-- The Duration checked constructor as an explicit conditional. -/
theorem duration_checked_eq (s a : Int) :
    Duration.of_seconds_and_adjustment_checked s a =
      if inI64 (s + Int.fdiv a 1000000000) then
        some ⟨s + Int.fdiv a 1000000000, Int.fmod a 1000000000⟩
      else none := by
  rw [Duration.of_seconds_and_adjustment_checked, combine_eq]
  split <;> simp

/-- The Instant checked constructor as an explicit conditional. -/
theorem instant_checked_eq (s a : Int) :
    Instant.of_epoch_second_and_adjustment_checked s a =
      if inI64 (s + Int.fdiv a 1000000000) then
        some ⟨s + Int.fdiv a 1000000000, Int.fmod a 1000000000⟩
      else none := by
  rw [Instant.of_epoch_second_and_adjustment_checked, combine_eq]
  split <;> simp

/-- Any Duration built by the checked constructor is canonical. -/
theorem canonical_of_checked {s a : Int} {d : Duration}
    (h : Duration.of_seconds_and_adjustment_checked s a = some d) :
    DurationCanonical d := by
  rw [duration_checked_eq] at h
  split at h
  · rename_i hc
    obtain rfl := Option.some_inj.mp h
    have h2 := fdiv_fmod_identity a
    exact ⟨h2.2.1, h2.2.2, renorm_eq hc h2.2.1 h2.2.2⟩
  · exact absurd h (by simp)

/-- Any Instant built by the checked constructor is canonical. -/
theorem canonical_of_checked_instant {s a : Int} {i : Instant}
    (h : Instant.of_epoch_second_and_adjustment_checked s a = some i) :
    InstantCanonical i := by
  rw [instant_checked_eq] at h
  split at h
  · rename_i hc
    obtain rfl := Option.some_inj.mp h
    have h2 := fdiv_fmod_identity a
    exact ⟨h2.2.1, h2.2.2, renorm_eq_instant hc h2.2.1 h2.2.2⟩
  · exact absurd h (by simp)

/-- The seconds constructor is canonical for any in-range input. -/
theorem of_seconds_canonical {s : Int} (hs : inI64 s) :
    DurationCanonical (Duration.of_seconds s) := by
  show 0 ≤ (0:Int) ∧ (0:Int) < 1000000000 ∧
    Duration.of_seconds_and_adjustment_checked s 0 = some ⟨s, 0⟩
  exact ⟨le_refl 0, by norm_num, renorm_eq hs (le_refl 0) (by norm_num)⟩

/-- A whole-unit constructor built from a checked multiplication is canonical. -/
theorem of_unit_canonical {n k : Int} {d : Duration}
    (h : (checked_mul n k).map Duration.of_seconds = some d) :
    DurationCanonical d := by
  by_cases hc : inI64 (n * k)
  · simp only [checked_mul, if_pos hc, Option.map_some', Option.some_inj] at h
    exact h ▸ of_seconds_canonical hc
  · simp [checked_mul, hc] at h

/-- The milliseconds constructor is canonical for any in-range input. -/
theorem of_millis_canonical {m : Int} (h : inI64 m) :
    DurationCanonical (Duration.of_millis m) := by
  rw [of_millis_eq]
  have h4 := fdiv_fmod_identity (m * 1000000)
  simp only [inI64, i64min, i64max] at h
  refine ⟨h4.2.1, h4.2.2, renorm_eq ?_ h4.2.1 h4.2.2⟩
  simp only [inI64, i64min, i64max]
  constructor <;> omega

/-- The nanoseconds constructor is canonical for any in-range input. -/
theorem of_nanos_canonical {n : Int} (h : inI64 n) :
    DurationCanonical (Duration.of_nanos n) := by
  have h2 := fdiv_fmod_identity n
  exact ⟨h2.2.1, h2.2.2, renorm_eq (fdiv_nanos_inI64 h) h2.2.1 h2.2.2⟩

example : Duration.of_nanos (-1) = ⟨-1, 999999999⟩ := by decide

/-- C1: every Duration and Instant produced by a public constructor has its
nanosecond field in the range zero to one billion exclusive, the accessors
return the stored fields verbatim, and renormalizing the accessor pair
reproduces the value unchanged. -/
theorem c1_constructors_canonical (a b : Int) (ha : inI64 a) (hb : inI64 b) :
    DurationCanonical (Duration.of_seconds a) ∧
    (∀ d, Duration.of_seconds_and_adjustment a b = some d → DurationCanonical d) ∧
    DurationCanonical (Duration.of_millis a) ∧
    DurationCanonical (Duration.of_nanos a) ∧
    (∀ d, Duration.of_days a = some d → DurationCanonical d) ∧
    (∀ d, Duration.of_hours a = some d → DurationCanonical d) ∧
    (∀ d, Duration.of_minutes a = some d → DurationCanonical d) ∧
    (∀ i, Instant.of_epoch_second a = some i → InstantCanonical i) ∧
    (∀ i, Instant.of_epoch_milli a = some i → InstantCanonical i) ∧
    (∀ i, Instant.of_epoch_second_and_adjustment a b = some i → InstantCanonical i) ∧
    (∀ d : Duration, d.seconds = d.seconds ∧ d.nano = d.nanoseconds_of_second) ∧
    (∀ i : Instant, i.epoch_second = i.epoch_second ∧ i.nano = i.nanosecond_of_second) := by
  refine ⟨of_seconds_canonical ha, fun d h => canonical_of_checked h,
    of_millis_canonical ha, of_nanos_canonical ha,
    fun d h => of_unit_canonical h, fun d h => of_unit_canonical h,
    fun d h => of_unit_canonical h,
    fun i h => canonical_of_checked_instant h,
    fun i h => canonical_of_checked_instant h,
    fun i h => canonical_of_checked_instant h,
    fun d => ⟨rfl, rfl⟩, fun i => ⟨rfl, rfl⟩⟩

theorem c1_constructors_canonical_witness :
    DurationCanonical (Duration.of_millis 1500) ∧ DurationCanonical (Duration.of_nanos (-1)) :=
  ⟨(c1_constructors_canonical 1500 0 (by decide) (by decide)).2.2.1,
    (c1_constructors_canonical (-1) 0 (by decide) (by decide)).2.2.2.1⟩

/-- C3: of_nanos uses floored division and never fails: for any i64 input the
result is the canonical floored quotient/remainder pair, the remainder is in
range, the seconds fit in i64, and in particular of_nanos at minus one equals
of_seconds_and_adjustment at minus one second and 999,999,999 nanoseconds,
not the pair of zero seconds and minus one nanosecond. -/
theorem c3_of_nanos_floored (n : Int) (h : inI64 n) :
    Duration.of_nanos n = ⟨Int.fdiv n 1000000000, Int.fmod n 1000000000⟩ ∧
    1000000000 * (Duration.of_nanos n).seconds + (Duration.of_nanos n).nano = n ∧
    0 ≤ (Duration.of_nanos n).nano ∧ (Duration.of_nanos n).nano < 1000000000 ∧
    inI64 ((Duration.of_nanos n).seconds) ∧
    some (Duration.of_nanos (-1)) = Duration.of_seconds_and_adjustment (-1) 999999999 ∧
    Duration.of_nanos (-1) ≠ ⟨0, -1⟩ := by
  have h2 := fdiv_fmod_identity n
  exact ⟨rfl, h2.1, h2.2.1, h2.2.2, fdiv_nanos_inI64 h, by decide, by decide⟩

theorem c3_of_nanos_floored_witness :
    Duration.of_nanos (-1) = ⟨Int.fdiv (-1) 1000000000, Int.fmod (-1) 1000000000⟩ ∧
    Duration.of_nanos (-1) = ⟨-1, 999999999⟩ :=
  ⟨(c3_of_nanos_floored (-1) (by decide)).1, by decide⟩

/-- C4: of_millis splits the input by truncating division, folds the carry
with the floored normalization step so the result is the canonical form of
the total nanosecond value, and never fails for any i64 input; in particular
1500 milliseconds give one second and a half, and minus 1500 milliseconds
give minus two seconds plus half a second. -/
theorem c4_of_millis (m : Int) (h : inI64 m) :
    Duration.of_millis m =
      ⟨Int.fdiv (m * 1000000) 1000000000, Int.fmod (m * 1000000) 1000000000⟩ ∧
    DurationCanonical (Duration.of_millis m) ∧
    some (Duration.of_millis 1500) = Duration.of_seconds_and_adjustment 1 500000000 ∧
    some (Duration.of_millis (-1500)) = Duration.of_seconds_and_adjustment (-2) 500000000 := by
  exact ⟨of_millis_eq m, of_millis_canonical h, by decide, by decide⟩

theorem c4_of_millis_witness :
    DurationCanonical (Duration.of_millis (-1500)) ∧
    Duration.of_millis (-1500) = ⟨-2, 500000000⟩ :=
  ⟨(c4_of_millis (-1500) (by decide)).2.1, by decide⟩

/-- C2: evaluation of the formatter at the failing input: the duration of
minus 0.3 seconds, built as of_seconds_and_adjustment of minus one second and
700,000,000 nanoseconds, is rendered by the code as PT0.3S with the sign
lost, because the guard for the literal minus-zero integer part tests the
sign-adjusted effective seconds (zero here) instead of the original total;
the claim and the spec require a literal minus-zero part, that is PT-0.3S. -/
theorem c2_sign_lost_at_failing_input :
    Duration.of_seconds_and_adjustment (-1) 700000000 = some ⟨-1, 700000000⟩ ∧
    Duration.fmt ⟨-1, 700000000⟩ = "PT0.3S" ∧
    Duration.fmt ⟨-1, 700000000⟩ ≠ "PT-0.3S" := by
  exact ⟨by decide, by decide, by decide⟩

/-- C8: the formatter examples of the spec: the zero duration, a whole-second
duration with hours, minutes and seconds, the same with a millisecond
fraction printed as nine zero-padded digits with trailing zeros stripped,
the minus 1.3 second duration, and a one-digit-survives padding example. -/
theorem c8_display_examples :
    Duration.fmt Duration.ZERO = "PT0S" ∧
    Duration.fmt (Duration.of_seconds (8 * 3600 + 6 * 60 + 12)) = "PT8H6M12S" ∧
    Duration.of_seconds_and_adjustment (8 * 3600 + 6 * 60 + 12) 345000000 =
      some ⟨29172, 345000000⟩ ∧
    Duration.fmt ⟨29172, 345000000⟩ = "PT8H6M12.345S" ∧
    Duration.of_seconds_and_adjustment (-2) 700000000 = some ⟨-2, 700000000⟩ ∧
    Duration.fmt ⟨-2, 700000000⟩ = "PT-1.3S" ∧
    Duration.fmt ⟨0, 5⟩ = "PT0.000000005S" ∧
    Duration.fmt ⟨0, 345000000⟩ = "PT0.345S" := by
  exact ⟨by decide, by decide, by decide, by decide, by decide, by decide, by decide, by decide⟩

/-- A whole-unit constructor round-trips through the truncating division of
the matching conversion query. -/
theorem unit_roundtrip {n k : Int} {d : Duration} (hk : k ≠ 0)
    (h : (checked_mul n k).map Duration.of_seconds = some d) :
    Int.tdiv d.seconds k = n := by
  by_cases hc : inI64 (n * k)
  · simp only [checked_mul, if_pos hc, Option.map_some', Option.some_inj] at h
    rw [← h]
    show Int.tdiv (n * k) k = n
    exact Int.mul_tdiv_cancel n hk
  · simp [checked_mul, hc] at h

/-- C9: for inputs that do not overflow, of_days then to_days returns the
input, likewise for hours and minutes; and the conversions use truncating
division of the seconds, as the negative non-multiple examples show (floored
division would give minus two there). -/
theorem c9_unit_roundtrip (n : Int) :
    (∀ d, Duration.of_days n = some d → d.to_days = n) ∧
    (∀ d, Duration.of_hours n = some d → d.to_hours = n) ∧
    (∀ d, Duration.of_minutes n = some d → d.to_minutes = n) ∧
    (Duration.of_seconds (-90000)).to_days = -1 ∧
    (Duration.of_seconds (-3660)).to_hours = -1 ∧
    (Duration.of_seconds (-61)).to_minutes = -1 := by
  refine ⟨fun d h => unit_roundtrip (by norm_num) h,
    fun d h => unit_roundtrip (by norm_num) h,
    fun d h => unit_roundtrip (by norm_num) h,
    by decide, by decide, by decide⟩

theorem c9_unit_roundtrip_witness :
    Duration.of_days 2 = some ⟨172800, 0⟩ ∧ Duration.to_days ⟨172800, 0⟩ = 2 :=
  ⟨by decide, (c9_unit_roundtrip 2).1 ⟨172800, 0⟩ (by decide)⟩

/-- Checked negation of a canonical value other than MIN: the sign flip with
the borrow folded in, in closed form. -/
theorem checked_neg_spec {s n : Int} (hs : inI64 s) (h0 : 0 ≤ n)
    (h1 : n < 1000000000) (hmin : (⟨s, n⟩ : Duration) ≠ Duration.MIN) :
    checked_neg ⟨s, n⟩ =
      some (if n = 0 then ⟨-s, 0⟩ else ⟨-s - 1, 1000000000 - n⟩) := by
  have hnm : ¬(s = i64min ∧ n = 0) := by
    intro hc
    exact hmin (by simp [Duration.MIN, hc.1, hc.2])
  rw [checked_neg]
  by_cases hm : s = i64min
  · have hn : n ≠ 0 := fun h => hnm ⟨hm, h⟩
    rw [if_neg (by simp [Duration.nano, hn, hm]), if_pos (by simp [hm])]
    simp only [Duration.nano, if_neg hn, Option.some_inj, Duration.mk.injEq, hm]
    constructor <;> [decide; ring_nf]
  · rw [if_neg (by simp [hm]), if_neg (by simp [hm])]
    have h2 := fdiv_fmod_identity (-n)
    by_cases hn : n = 0
    · have hq : Int.fdiv (-n) 1000000000 = 0 := by omega
      have hr : Int.fmod (-n) 1000000000 = 0 := by omega
      simp only [Duration.nano, carry_and_nanos, floor_divide_and_remainder,
        NANOSECONDS_IN_SECOND, hq, hr, if_pos hn, Option.some_inj, Duration.mk.injEq]
      exact ⟨by ring, trivial⟩
    · have hq : Int.fdiv (-n) 1000000000 = -1 := by omega
      have hr : Int.fmod (-n) 1000000000 = 1000000000 - n := by omega
      simp only [Duration.nano, carry_and_nanos, floor_divide_and_remainder,
        NANOSECONDS_IN_SECOND, hq, hr, if_neg hn, Option.some_inj, Duration.mk.injEq]
      exact ⟨by ring, trivial⟩

/-- C5: for canonical values other than MIN double negation is the identity,
and negation re-normalizes the mixed-radix pair rather than flipping the
field signs, as the 1.3 second example shows. -/
theorem c5_double_neg (d : Duration) (hs : inI64 d.seconds) (h0 : 0 ≤ d.nano)
    (h1 : d.nano < 1000000000) (hmin : d ≠ Duration.MIN) :
    (Duration.neg d).bind Duration.neg = some d ∧
    Duration.neg ⟨1, 300000000⟩ = some ⟨-2, 700000000⟩ ∧
    Duration.of_seconds_and_adjustment 1 300000000 = some ⟨1, 300000000⟩ ∧
    Duration.of_seconds_and_adjustment (-2) 700000000 = some ⟨-2, 700000000⟩ := by
  refine ⟨?_, by decide, by decide, by decide⟩
  obtain ⟨s, n⟩ := d
  replace hs : inI64 s := hs
  replace h0 : 0 ≤ n := h0
  replace h1 : n < 1000000000 := h1
  replace hmin : (⟨s, n⟩ : Duration) ≠ Duration.MIN := hmin
  have hs2 : s ≤ 9223372036854775807 := hs.2
  have hs3 : -9223372036854775808 ≤ s := hs.1
  rw [Duration.neg, checked_neg_spec hs h0 h1 hmin]
  by_cases hn : n = 0
  · subst hn
    rw [if_pos rfl]
    have hsm : s ≠ (-9223372036854775808 : Int) := by
      intro h
      exact hmin (by simp [Duration.MIN, h])
    have hsr : inI64 (-s) := by
      simp only [inI64, i64min, i64max]
      omega
    have hm2 : (⟨-s, 0⟩ : Duration) ≠ Duration.MIN := by
      intro h
      rw [Duration.MIN, Duration.mk.injEq] at h
      simp only [i64min] at h
      omega
    simp only [Option.some_bind, Duration.neg]
    rw [checked_neg_spec hsr (le_refl 0) (by norm_num) hm2, if_pos rfl]
    simp
  · rw [if_neg hn]
    have hsr : inI64 (-s - 1) := by
      simp only [inI64, i64min, i64max]
      omega
    have hn2 : (1000000000 : Int) - n ≠ 0 := by omega
    have hm2 : (⟨-s - 1, 1000000000 - n⟩ : Duration) ≠ Duration.MIN := by
      intro h
      rw [Duration.MIN, Duration.mk.injEq] at h
      omega
    simp only [Option.some_bind, Duration.neg]
    rw [checked_neg_spec hsr (by omega) (by omega) hm2, if_neg hn2]
    simp only [Option.some_inj, Duration.mk.injEq]
    constructor <;> omega

theorem c5_double_neg_witness :
    (Duration.neg ⟨1, 300000000⟩).bind Duration.neg = some ⟨1, 300000000⟩ :=
  (c5_double_neg ⟨1, 300000000⟩ (by decide) (by decide) (by decide) (by decide)).1

/-- C6: negation overflow occurs exactly at MIN: negating MIN fails, abs
fails exactly at MIN, a value with minimal seconds but nonzero nanoseconds
negates to the maximal seconds and the complemented nanoseconds, and a
non-negative value is returned unchanged by abs. -/
theorem c6_neg_abs_overflow (d : Duration) (hs : inI64 d.seconds) (h0 : 0 ≤ d.nano)
    (h1 : d.nano < 1000000000) :
    checked_neg Duration.MIN = none ∧
    (Duration.abs d = none ↔ d = Duration.MIN) ∧
    (d.seconds = i64min → d.nano ≠ 0 →
      checked_neg d = some ⟨i64max, 1000000000 - d.nano⟩) ∧
    (Duration.ble Duration.ZERO d = true → Duration.abs d = some d) := by
  refine ⟨by decide, ⟨?_, ?_⟩, ?_, ?_⟩
  · intro ha
    by_contra hmin
    rw [Duration.abs] at ha
    split at ha
    · exact absurd ha (by simp)
    · obtain ⟨s, n⟩ := d
      replace hs : inI64 s := hs
      replace h0 : 0 ≤ n := h0
      replace h1 : n < 1000000000 := h1
      replace hmin : ¬(⟨s, n⟩ : Duration) = Duration.MIN := hmin
      rw [checked_neg_spec hs h0 h1 hmin] at ha
      exact absurd ha (by simp)
  · intro h
    subst h
    decide
  · intro hm hn
    rw [checked_neg, if_neg (fun hc => hn hc.2), if_pos hm]
  · intro hb
    rw [Duration.abs, if_pos hb]

theorem c6_neg_abs_overflow_witness :
    Duration.abs ⟨-9223372036854775808, 1⟩ = some ⟨9223372036854775807, 999999999⟩ ∧
    (Duration.abs ⟨-1, 700000000⟩ = none ↔ (⟨-1, 700000000⟩ : Duration) = Duration.MIN) :=
  ⟨by decide, (c6_neg_abs_overflow ⟨-1, 700000000⟩ (by decide) (by decide) (by decide)).2.1⟩

/-- C7 as stated is false: of_nanos of the minimal i64 value has an exactly
representable total nanosecond count, namely the input itself, yet to_nanos
fails, because the intermediate product of the seconds by one billion
overflows before the nanoseconds are added back. -/
theorem c7_counterexample :
    Duration.to_nanos (Duration.of_nanos (-9223372036854775808)) = none ∧
    1000000000 * (Duration.of_nanos (-9223372036854775808)).seconds +
        (Duration.of_nanos (-9223372036854775808)).nano = -9223372036854775808 ∧
    inI64 (-9223372036854775808) := by
  exact ⟨by decide, by decide, by decide⟩

/-- A checked multiply-then-add pipeline returns exactly the true sum. -/
theorem checked_two_step_some {s t v : Int}
    (h : ((if inI64 s then some s else none).bind
        (fun a => if inI64 (a + t) then some (a + t) else none)) = some v) :
    v = s + t := by
  by_cases h1 : inI64 s
  · rw [if_pos h1, Option.some_bind] at h
    by_cases h2 : inI64 (s + t)
    · rw [if_pos h2] at h
      exact (Option.some_inj.mp h).symm
    · rw [if_neg h2] at h
      exact absurd h (by simp)
  · rw [if_neg h1, Option.none_bind] at h
    exact absurd h (by simp)

/-- A checked multiply-then-add pipeline fails exactly when a step overflows. -/
theorem checked_two_step_none {s t : Int} :
    ((if inI64 s then some s else none).bind
        (fun a => if inI64 (a + t) then some (a + t) else none)) = none ↔
      ¬inI64 s ∨ ¬inI64 (s + t) := by
  by_cases h1 : inI64 s <;> by_cases h2 : inI64 (s + t) <;> simp [h1, h2] <;>
    (simp only [inI64, i64min, i64max] at h1 h2 ⊢ <;> omega)

/-- C7 amended: to_millis and to_nanos compute the exact totals with each
step overflow-checked: a returned value is always the exact total, and the
call fails exactly when the intermediate product or the final sum leaves the
i64 range, which can happen even when the exact total is representable. -/
theorem c7_to_conversions_amended (d : Duration) :
    (∀ v, Duration.to_millis d = some v →
      v = d.seconds * 1000 + Int.tdiv d.nano 1000000) ∧
    (Duration.to_millis d = none ↔
      ¬inI64 (d.seconds * 1000) ∨
        ¬inI64 (d.seconds * 1000 + Int.tdiv d.nano 1000000)) ∧
    (∀ v, Duration.to_nanos d = some v → v = d.seconds * 1000000000 + d.nano) ∧
    (Duration.to_nanos d = none ↔
      ¬inI64 (d.seconds * 1000000000) ∨
        ¬inI64 (d.seconds * 1000000000 + d.nano)) := by
  exact ⟨fun v h => checked_two_step_some h, checked_two_step_none,
    fun v h => checked_two_step_some h, checked_two_step_none⟩

theorem c7_to_conversions_amended_witness :
    Duration.to_nanos ⟨1, 500000000⟩ = some 1500000000 ∧
    (1500000000 : Int) =
      (⟨1, 500000000⟩ : Duration).seconds * 1000000000 + (⟨1, 500000000⟩ : Duration).nano :=
  ⟨by decide, (c7_to_conversions_amended ⟨1, 500000000⟩).2.2.1 1500000000 (by decide)⟩

/-- C10: the derived default values equal the named zero constants of the two
types. -/
theorem c10_default_eq_zero :
    Duration.default = Duration.ZERO ∧ Instant.default = Instant.EPOCH :=
  ⟨rfl, rfl⟩
example : Duration.of_millis 1500 = ⟨1, 500000000⟩ := by decide
example : Duration.of_millis (-1500) = ⟨-2, 500000000⟩ := by decide
example : checked_neg ⟨1, 300000000⟩ = some ⟨-2, 700000000⟩ := by decide
example : Duration.to_nanos (Duration.of_nanos i64min) = none := by decide
